import Mathlib

/-!
Shallow embedding of the neutuino terminal-input decoding engine.

The embedded code is the Unix byte-stream decoder of `src/unix_input.rs`
(`parse_event`, `parse_utf8_char`, `parse_ansi_sequence`, `parse_csi_sequence`,
`parse_numbered_escape`, `parse_x10_mouse`, `parse_xterm_mouse`) and the Windows
console-record translator of `src/windows_input.rs` (`poll_input`,
`parse_key_event`).  `src/unix.rs` and `src/windows.rs` contain near-duplicate
historical snapshots of the same functions; the current modules
(`unix_input.rs` / `windows_input.rs`) are the ones embedded here.

Machine integers become `Nat` with explicit `% 256` (resp. `% 65536`) where the
Rust code performs wrapping `u8`/`u16` arithmetic; `saturating_sub` becomes
truncated `Nat` subtraction, which has the same value.  Fallible Rust code
returning `io::Result` becomes `Except IOError`; a pull-iterator of
`io::Result<u8>` items becomes a `List (Except IOError Nat)` consumed from the
front, and every decoder returns the unconsumed remainder of its source so that
byte-consumption is observable.  A Rust panic (a failed `unwrap`, an
out-of-bounds index, or a debug-mode arithmetic overflow) is modelled by the
explicit `PRes.panic` result.
-/

namespace Neutuino

/-- Errors of the `std::io` error values the decoders construct or propagate.
`invalidData msg` is `io::Error::new(ErrorKind::InvalidData, msg)`;
`otherMsg msg` is `io::Error::other(msg)`; `otherKind` is
`io::ErrorKind::Other.into()`; `invalidDataKind` is
`io::ErrorKind::InvalidData.into()`; `timedOut` is
`io::ErrorKind::TimedOut.into()`; `osError` stands for
`io::Error::last_os_error()`; `sourceErr` is an arbitrary error produced by the
underlying byte source. -/
inductive IOError where
  | invalidData (msg : String)
  | otherMsg (msg : String)
  | otherKind
  | invalidDataKind
  | timedOut
  | osError
  | sourceErr (code : Nat)
deriving DecidableEq, Repr

/-- Modelled from the spec: the `Modifiers` flag set of the missing
`src/input.rs` module (spec section 3): independent boolean flags
shift/alt/ctrl/meta, with `NONE` the all-false value. -/
structure Modifiers where
  shift : Bool
  alt : Bool
  ctrl : Bool
  meta : Bool
deriving DecidableEq, Repr

/-- Modelled from the spec: `Modifiers::NONE`, the all-false identity value. -/
def Modifiers.NONE : Modifiers := ⟨false, false, false, false⟩

/-- Modelled from the spec: the builder method `Modifiers::shift(b)` used as
`Modifiers::NONE.shift(character.is_uppercase())` in the source; it returns the
modifier set with the shift flag replaced by `b`. -/
def Modifiers.setShift (m : Modifiers) (b : Bool) : Modifiers := { m with shift := b }

/-- Modelled from the spec: the builder method `Modifiers::alt(b)` used as
`....alt(true)` in the source. -/
def Modifiers.setAlt (m : Modifiers) (b : Bool) : Modifiers := { m with alt := b }

/-- Modelled from the spec: `Modifiers::new(shift, alt, ctrl)` as called by
`parse_xterm_mouse`; the meta flag is not settable there. -/
def Modifiers.new (shift alt ctrl : Bool) : Modifiers := ⟨shift, alt, ctrl, false⟩

/-- Modelled from the spec: the `KeyCode` set of the unified event model (spec
section 3): named control keys, function keys `F n`, or `Char cp` holding the
Unicode scalar value `cp` (a `Nat` here, standing for the Rust `char`). -/
inductive Key where
  | Char (cp : Nat)
  | F (n : Nat)
  | Enter
  | Escape
  | Backspace
  | Tab
  | Delete
  | Insert
  | Home
  | End
  | PageUp
  | PageDown
  | Left
  | Right
  | Up
  | Down
deriving DecidableEq, Repr

/-- Modelled from the spec: the `KeyAction` (called `ButtonType` by the
callers in the source): Press, Held or Release. -/
inductive ButtonType where
  | Press
  | Held
  | Release
deriving DecidableEq, Repr

/-- Modelled from the spec: the `MouseButton` set of the unified event model.
`noneBtn` is the source's `MouseButton::None`. -/
inductive MouseButton where
  | Left
  | Middle
  | Right
  | WheelUp
  | WheelDown
  | WheelLeft
  | WheelRight
  | Unknown
  | noneBtn
deriving DecidableEq, Repr

/-- Modelled from the spec: the unified `Event` model (spec section 3). -/
inductive Event where
  | Key (k : Key) (t : ButtonType) (m : Modifiers)
  | Mouse (m : Modifiers) (b : MouseButton) (t : ButtonType) (cx cy : Nat)
  | FocusGained
  | FocusLost
deriving DecidableEq, Repr

/-- Modelled from the spec: the helper `key_helper(mods, key)` of the missing
`src/input.rs`, reconstructed from its call sites: it builds a key `Press`
event whose modifier flags are named by the letters of the string argument
(`"C"` ctrl, `"A"` alt, `"S"` shift, `""` none — compare
`key_helper("S", Key::Tab)` for Shift+Tab and `key_helper("CA", ...)` for
Ctrl+Alt in the source). -/
def key_helper (mods : String) (k : Key) : Event :=
  Event.Key k ButtonType.Press
    ⟨mods.data.contains 'S', mods.data.contains 'A', mods.data.contains 'C', false⟩

/-- Modelled from the spec: the helper `simple_key(key, shift, alt, ctrl)` of
the missing `src/input.rs`, reconstructed from its call sites: a key `Press`
event with the given three modifier flags. -/
def simple_key (k : Key) (shift alt ctrl : Bool) : Event :=
  Event.Key k ButtonType.Press ⟨shift, alt, ctrl, false⟩

/-- Pull source of bytes: the embedding of an `Iterator<Item = io::Result<u8>>`.
The list end is iterator exhaustion (`next()` returning `None`). -/
abbrev Source := List (Except IOError Nat)

/-- Builds a source that yields the given plain bytes, as the repository's own
test does with `string.bytes().map(|x| Ok(x))`. -/
def mkSource (bs : List Nat) : Source := bs.map Except.ok

instance {ε α : Type} [DecidableEq ε] [DecidableEq α] : DecidableEq (Except ε α) :=
  fun a b =>
    match a, b with
    | .ok x, .ok y =>
      if h : x = y then .isTrue (by rw [h]) else .isFalse (by intro hh; cases hh; exact h rfl)
    | .error e, .error f =>
      if h : e = f then .isTrue (by rw [h]) else .isFalse (by intro hh; cases hh; exact h rfl)
    | .ok _, .error _ => .isFalse (by intro hh; cases hh)
    | .error _, .ok _ => .isFalse (by intro hh; cases hh)

/-- Result of an embedded decoder that may panic: `ok v rest` is a normal
return of `v` with `rest` the unconsumed remainder of the source; `panic` is a
Rust panic (failed `unwrap`, index out of bounds, debug-mode overflow). -/
inductive PRes (α : Type) where
  | ok (val : α) (rest : Source)
  | panic
deriving DecidableEq, Repr

/-! ### UTF-8 validation, mirroring `std::str::from_utf8` -/

/-- Tests for a UTF-8 continuation byte (`0x80..=0xBF`). -/
def isCont (b : Nat) : Bool := decide (0x80 ≤ b) && decide (b < 0xC0)

/-- Decodes the first UTF-8 scalar of a byte list, returning it with the
remaining bytes, or `none` if the list does not start with a well-formed
sequence.  The side conditions reject overlong forms, surrogates and values
above `0x10FFFF`, exactly as `std::str::from_utf8` does. -/
def utf8DecodeFirst : List Nat → Option (Nat × List Nat)
  | [] => none
  | b0 :: rest =>
    if b0 < 0x80 then some (b0, rest)
    else if b0 < 0xC0 then none
    else if b0 < 0xE0 then
      match rest with
      | b1 :: r =>
        if isCont b1 then
          let cp := (b0 - 0xC0) * 0x40 + (b1 - 0x80)
          if 0x80 ≤ cp then some (cp, r) else none
        else none
      | [] => none
    else if b0 < 0xF0 then
      match rest with
      | b1 :: b2 :: r =>
        if isCont b1 && isCont b2 then
          let cp := (b0 - 0xE0) * 0x1000 + (b1 - 0x80) * 0x40 + (b2 - 0x80)
          if 0x800 ≤ cp ∧ ¬(0xD800 ≤ cp ∧ cp < 0xE000) then some (cp, r) else none
        else none
      | _ => none
    else if b0 < 0xF8 then
      match rest with
      | b1 :: b2 :: b3 :: r =>
        if isCont b1 && isCont b2 && isCont b3 then
          let cp := (b0 - 0xF0) * 0x40000 + (b1 - 0x80) * 0x1000
                      + (b2 - 0x80) * 0x40 + (b3 - 0x80)
          if 0x10000 ≤ cp ∧ cp < 0x110000 then some (cp, r) else none
        else none
      | _ => none
    else none

/-- Decodes a whole byte list into its scalar values (`none` when the list is
not valid UTF-8).  The fuel only needs to be at least the list length, since
every scalar consumes at least one byte. -/
def utf8Scalars : Nat → List Nat → Option (List Nat)
  | _, [] => some []
  | 0, _ :: _ => none
  | fuel + 1, b :: rest =>
    match utf8DecodeFirst (b :: rest) with
    | none => none
    | some (cp, r) => (utf8Scalars fuel r).map (cp :: ·)

/-- Whether a byte list is valid UTF-8, as `std::str::from_utf8(..).is_ok()`. -/
def utf8Valid (bs : List Nat) : Bool := (utf8Scalars bs.length bs).isSome

/-- First scalar of a byte list when the whole list is valid UTF-8 (the
combination `from_utf8(&bytes)` followed by `.chars().next()`). -/
def utf8First (bs : List Nat) : Option Nat :=
  match utf8Scalars bs.length bs with
  | some (cp :: _) => some cp
  | _ => none

/-! ### `parse_utf8_char` of `src/unix_input.rs` -/

/-- Error value built by `parse_utf8_char`'s `error` closure. -/
def utf8Error : IOError := .invalidData "Input char is not valid UTF-8"

/-- Loop body of `parse_utf8_char`: `for _ in 1..=4` first tries to interpret
the accumulated buffer as UTF-8 and otherwise pulls one more byte; after the
four iterations the error is returned.  (The `.chars().next().unwrap()` of the
source cannot panic: the buffer is never empty, so a valid buffer has a first
character.) -/
def parse_utf8_go : Nat → List Nat → Source → (Except IOError Nat) × Source
  | 0, _, src => (.error utf8Error, src)
  | n + 1, bytes, src =>
    match utf8First bytes with
    | some cp => (.ok cp, src)
    | none =>
      match src with
      | [] => (.error utf8Error, [])
      | .error e :: rest => (.error e, rest)
      | .ok b :: rest => parse_utf8_go n (bytes ++ [b]) rest

/-- `parse_utf8_char(c, iter)`: reassembles one Unicode scalar from a first
byte `c` and lazily pulled continuation bytes. -/
def parse_utf8_char (c : Nat) (src : Source) : (Except IOError Nat) × Source :=
  parse_utf8_go 4 [c] src

/-! ### CSI payload helpers -/

/-- Accumulation loop of `parse_numbered_escape`: keep reading bytes into the
buffer until one lands in the CSI final-byte range `64..=126`; each read is
`iter.next().unwrap().unwrap()`, so an exhausted source or a source error is a
panic. -/
def csi_accumulate : List Nat → Source → PRes (List Nat × Nat)
  | _, [] => .panic
  | _, .error _ :: _ => .panic
  | buf, .ok c :: rest =>
    if 64 ≤ c ∧ c ≤ 126 then .ok (buf, c) rest
    else csi_accumulate (buf ++ [c]) rest

/-- Accumulation loop of `parse_xterm_mouse`: keep reading until `m` (109) or
`M` (77); reads are `unwrap`ped the same way. -/
def xterm_accumulate : List Nat → Source → PRes (List Nat × Nat)
  | _, [] => .panic
  | _, .error _ :: _ => .panic
  | buf, .ok c :: rest =>
    if c = 109 ∨ c = 77 then .ok (buf, c) rest
    else xterm_accumulate (buf ++ [c]) rest

/-- Splits a byte list at every occurrence of `sep`, mirroring
`str::split(char)`: the result always has at least one (possibly empty)
group. -/
def splitOnByte (sep : Nat) : List Nat → List (List Nat)
  | [] => [[]]
  | b :: rest =>
    match splitOnByte sep rest with
    | [] => [[b]]
    | g :: gs => if b = sep then [] :: g :: gs else (b :: g) :: gs

/-- Rust `str::parse::<uN>()` on the bytes of a group: an optional leading `+`,
then one or more ASCII digits, and the value must be below `bound` (256 for
`u8`, 65536 for `u16`, 2^32 for `u32`); anything else is a parse error
(`none`). -/
def parseNum (bound : Nat) (bs : List Nat) : Option Nat :=
  let ds := if bs.headD 0 = 43 then bs.tail else bs
  if ds.isEmpty then none
  else if ds.all (fun b => decide (48 ≤ b) && decide (b ≤ 57)) then
    let v := ds.foldl (fun a b => a * 10 + (b - 48)) 0
    if v < bound then some v else none
  else none

/-! ### `parse_numbered_escape` of `src/unix_input.rs` -/

/-- `parse_numbered_escape(iter, c)`: accumulates the CSI payload and
dispatches on the final byte (`M` rxvt mouse, `~` special key, `u` kitty key,
`A/B/C/D/F/H` modifier-qualified keys).  `String::from_utf8(buf).unwrap()` is
a panic on a non-UTF-8 payload, and every `.parse().unwrap()` is a panic on a
malformed number; `nums[i]` out of bounds and the debug-mode `u8` underflow of
`nums[1] - 1` also panic. -/
def parse_numbered_escape (src : Source) (c : Nat) : PRes (Option Event) :=
  match csi_accumulate [c] src with
  | .panic => .panic
  | .ok (buf, fin) rest =>
    if fin = 77 then
      -- rxvt mouse encoding: ESC [ Cb ; Cx ; Cy ; M
      if utf8Valid buf then
        match (splitOnByte 59 buf).mapM (parseNum 65536) with
        | none => .panic
        | some nums =>
          match nums with
          | cb :: cx :: cy :: _ =>
            let mods := Modifiers.NONE
            if cb = 32 then .ok (some (.Mouse mods .Left .Press cx cy)) rest
            else if cb = 33 then .ok (some (.Mouse mods .Middle .Press cx cy)) rest
            else if cb = 34 then .ok (some (.Mouse mods .Right .Press cx cy)) rest
            else if cb = 35 then .ok (some (.Mouse mods .Unknown .Release cx cy)) rest
            else if cb = 64 then .ok (some (.Mouse mods .Unknown .Held cx cy)) rest
            else if cb = 96 ∨ cb = 97 then .ok (some (.Mouse mods .WheelUp .Press cx cy)) rest
            else .ok none rest
          | _ => .panic
      else .panic
    else if fin = 126 then
      -- special key code terminated by '~'
      if utf8Valid buf then
        match (splitOnByte 59 buf).mapM (parseNum 256) with
        | none => .panic
        | some nums =>
          if nums.isEmpty then .ok none rest
          else if 1 < nums.length then .ok none rest
          else
            let n := nums.headD 0
            if n = 1 ∨ n = 7 then .ok (some (key_helper "" .Home)) rest
            else if n = 2 then .ok (some (key_helper "" .Insert)) rest
            else if n = 3 then .ok (some (key_helper "" .Delete)) rest
            else if n = 4 ∨ n = 8 then .ok (some (key_helper "" .End)) rest
            else if n = 5 then .ok (some (key_helper "" .PageUp)) rest
            else if n = 6 then .ok (some (key_helper "" .PageDown)) rest
            else if 11 ≤ n ∧ n ≤ 15 then .ok (some (key_helper "" (.F (n - 10)))) rest
            else if 17 ≤ n ∧ n ≤ 21 then .ok (some (key_helper "" (.F (n - 11)))) rest
            else if n = 23 ∨ n = 24 then .ok (some (key_helper "" (.F (n - 12)))) rest
            else .ok none rest
      else .panic
    else if fin = 117 then
      -- kitty keyboard protocol: keycode[;modifier[:key_type]] u
      if utf8Valid buf then
        match splitOnByte 59 buf with
        | [] => .panic
        | g0 :: grest =>
          match parseNum 4294967296 g0 with
          | none => .ok none rest
          | some key_code =>
            match splitOnByte 58 (grest.headD [48, 58, 49]) with
            | [] => .panic
            | m0 :: mrest =>
              match parseNum 4294967296 m0 with
              | none => .ok none rest
              | some _modifier =>
                match parseNum 4294967296 (mrest.headD [49]) with
                | none => .ok none rest
                | some key_type =>
                  let bt := if key_type = 1 then some ButtonType.Press
                            else if key_type = 2 then some ButtonType.Held
                            else if key_type = 3 then some ButtonType.Release
                            else none
                  match bt with
                  | none => .ok none rest
                  | some bt =>
                    if key_code < 0xD800 ∨ (0xE000 ≤ key_code ∧ key_code < 0x110000) then
                      .ok (some (.Key (.Char key_code) bt Modifiers.NONE)) rest
                    else .ok none rest
      else .panic
    else if fin = 65 ∨ fin = 66 ∨ fin = 67 ∨ fin = 68 ∨ fin = 70 ∨ fin = 72 then
      -- modifier-qualified arrows / Home / End
      if utf8Valid buf then
        match (splitOnByte 59 buf).mapM (parseNum 256) with
        | none => .panic
        | some nums =>
          if ¬(nums.length = 2 ∧ nums.headD 0 = 1) then .ok none rest
          else
            let m1 := nums.tail.headD 0
            if m1 = 0 then .panic
            else
              let mods := m1 - 1
              let shift := decide (mods &&& 1 = 1)
              let alt := decide (mods &&& 2 = 2)
              let ctrl := decide (mods &&& 4 = 4)
              if fin = 68 then .ok (some (simple_key .Left shift alt ctrl)) rest
              else if fin = 67 then .ok (some (simple_key .Right shift alt ctrl)) rest
              else if fin = 65 then .ok (some (simple_key .Up shift alt ctrl)) rest
              else if fin = 66 then .ok (some (simple_key .Down shift alt ctrl)) rest
              else if fin = 72 then .ok (some (simple_key .Home shift alt ctrl)) rest
              else .ok (some (simple_key .End shift alt ctrl)) rest
      else .panic
    else .ok none rest

/-! ### Mouse decoders of `src/unix_input.rs` -/

/-- `parse_x10_mouse(iter)`: exactly three raw payload bytes, each read with
`iter.next().unwrap().unwrap()` (panic on exhaustion or source error);
`cb = byte0.wrapping_sub(32)` is `u8` wrapping arithmetic, the coordinates use
`saturating_sub(33)`.  The dispatch is on `cb & 0b11` with the wheel bit
`cb & 0x40`; the Lean catch-all arm is the `3` case (the Rust `_` arm is
`unreachable!`). -/
def parse_x10_mouse : Source → PRes Event
  | .ok b0 :: .ok b1 :: .ok b2 :: rest =>
    let cb := (b0 + 224) % 256
    let cx := b1 - 33
    let cy := b2 - 33
    let mods := Modifiers.NONE
    if cb &&& 3 = 0 then
      if cb &&& 64 ≠ 0 then .ok (.Mouse mods .WheelUp .Press cx cy) rest
      else .ok (.Mouse mods .Left .Press cx cy) rest
    else if cb &&& 3 = 1 then
      if cb &&& 64 ≠ 0 then .ok (.Mouse mods .WheelDown .Press cx cy) rest
      else .ok (.Mouse mods .Middle .Press cx cy) rest
    else if cb &&& 3 = 2 then
      if cb &&& 64 ≠ 0 then .ok (.Mouse mods .WheelLeft .Press cx cy) rest
      else .ok (.Mouse mods .Right .Press cx cy) rest
    else
      if cb &&& 64 ≠ 0 then .ok (.Mouse mods .WheelRight .Press cx cy) rest
      else .ok (.Mouse mods .Unknown .Release cx cy) rest
  | _ => .panic

/-- `parse_xterm_mouse(iter)`: SGR mouse reports `ESC [ < Cb ; Cx ; Cy (M|m)`.
The payload accumulates until `m`/`M`; `from_utf8(..).unwrap()` and each
`parse::<u16>().unwrap()` panic on malformed payloads, while a missing second
or third number is `?`-propagated as `None`. -/
def parse_xterm_mouse (src : Source) : PRes (Option Event) :=
  match xterm_accumulate [] src with
  | .panic => .panic
  | .ok (buf, c) rest =>
    if utf8Valid buf then
      match splitOnByte 59 buf with
      | [] => .panic
      | g0 :: gs =>
        match parseNum 65536 g0 with
        | none => .panic
        | some cb =>
          match gs with
          | [] => .ok none rest
          | g1 :: gs2 =>
            match parseNum 65536 g1 with
            | none => .panic
            | some cx0 =>
              match gs2 with
              | [] => .ok none rest
              | g2 :: _ =>
                match parseNum 65536 g2 with
                | none => .panic
                | some cy0 =>
                  let cx := cx0 - 1
                  let cy := cy0 - 1
                  let shift := decide (cb &&& 4 = 4)
                  let alt := decide (cb &&& 8 = 8)
                  let ctrl := decide (cb &&& 16 = 16)
                  let mods := Modifiers.new shift alt ctrl
                  let trimmed := cb ^^^ (cb &&& 28)
                  if trimmed ≤ 2 ∨ (64 ≤ trimmed ∧ trimmed ≤ 67) then
                    let button := if trimmed = 0 then MouseButton.Left
                      else if trimmed = 1 then MouseButton.Middle
                      else if trimmed = 2 then MouseButton.Right
                      else if trimmed = 64 then MouseButton.WheelUp
                      else if trimmed = 65 then MouseButton.WheelDown
                      else if trimmed = 66 then MouseButton.WheelLeft
                      else MouseButton.WheelRight
                    if c = 77 then .ok (some (.Mouse mods button .Press cx cy)) rest
                    else if c = 109 then .ok (some (.Mouse mods button .Release cx cy)) rest
                    else .ok none rest
                  else if trimmed = 32 then .ok (some (.Mouse mods .Left .Held cx cy)) rest
                  else if trimmed = 33 then .ok (some (.Mouse mods .Middle .Held cx cy)) rest
                  else if trimmed = 34 then .ok (some (.Mouse mods .Right .Held cx cy)) rest
                  else if trimmed = 35 then .ok (some (.Mouse mods .noneBtn .Held cx cy)) rest
                  else if trimmed = 3 then .ok (some (.Mouse mods .Unknown .Release cx cy)) rest
                  else .ok none rest
    else .panic

/-! ### Escape/CSI lexer of `src/unix_input.rs` -/

/-- `parse_csi_sequence(iter)`: single-byte dispatch after `ESC [`. -/
def parse_csi_sequence (src : Source) : PRes (Option Event) :=
  match src with
  | [] => .ok (some (key_helper "A" (.Char 91))) []
  | .error _ :: rest => .ok none rest
  | .ok c :: rest =>
    if c = 91 then
      match rest with
      | .ok val :: rest2 =>
        if 65 ≤ val ∧ val ≤ 69 then .ok (some (key_helper "" (.F (1 + val - 65)))) rest2
        else .ok none rest2
      | .error _ :: rest2 => .ok none rest2
      | [] => .ok none []
    else if c = 68 then .ok (some (key_helper "" .Left)) rest
    else if c = 67 then .ok (some (key_helper "" .Right)) rest
    else if c = 65 then .ok (some (key_helper "" .Up)) rest
    else if c = 66 then .ok (some (key_helper "" .Down)) rest
    else if c = 72 then .ok (some (key_helper "" .Home)) rest
    else if c = 70 then .ok (some (key_helper "" .End)) rest
    else if c = 90 then .ok (some (key_helper "" .Tab)) rest
    else if c = 60 then parse_xterm_mouse rest
    else if c = 77 then
      match parse_x10_mouse rest with
      | .panic => .panic
      | .ok ev rest2 => .ok (some ev) rest2
    else if 48 ≤ c ∧ c ≤ 57 then parse_numbered_escape rest c
    else .ok none rest

/-- `parse_ansi_sequence(iter)`: resolves the byte following a leading `ESC`.
The `isUpper` parameter stands for Rust's `char::is_uppercase` (full Unicode
uppercase property), which the Alt-prefixed UTF-8 path applies to the decoded
scalar. -/
def parse_ansi_sequence (isUpper : Nat → Bool) (src : Source) : PRes (Except IOError Event) :=
  let error := IOError.otherMsg "Could not parse event"
  match src with
  | [] => .ok (.ok (key_helper "" .Escape)) []
  | .error _ :: rest => .ok (.error error) rest
  | .ok c :: rest =>
    if c = 79 then
      match rest with
      | .ok val :: rest2 =>
        if 80 ≤ val ∧ val ≤ 115 then .ok (.ok (key_helper "" (.F (1 + val - 80)))) rest2
        else .ok (.error error) rest2
      | .error _ :: rest2 => .ok (.error error) rest2
      | [] => .ok (.error error) []
    else if c = 91 then
      match parse_csi_sequence rest with
      | .panic => .panic
      | .ok none rest2 => .ok (.error error) rest2
      | .ok (some ev) rest2 => .ok (.ok ev) rest2
    else if c = 13 then .ok (.ok (key_helper "A" (.Char 13))) rest
    else if c = 10 then .ok (.ok (key_helper "CA" (.Char 106))) rest
    else if c = 9 then .ok (.ok (key_helper "A" (.Char 9))) rest
    else if c = 127 then .ok (.ok (key_helper "A" .Backspace)) rest
    else if c = 0 then .ok (.ok (key_helper "CA" (.Char 32))) rest
    else if 1 ≤ c ∧ c ≤ 26 then .ok (.ok (key_helper "CA" (.Char (c + 96)))) rest
    else if 28 ≤ c ∧ c ≤ 31 then .ok (.ok (key_helper "CA" (.Char (c + 24)))) rest
    else
      match parse_utf8_char c rest with
      | (.error e, rest2) => .ok (.error e) rest2
      | (.ok cp, rest2) =>
        .ok (.ok (.Key (.Char cp) .Press
          ((Modifiers.NONE.setShift (isUpper cp)).setAlt true))) rest2

/-- `parse_event(item, iter)`: classification of the first byte of an event.
`isUpper` again stands for `char::is_uppercase`. -/
def parse_event (isUpper : Nat → Bool) (item : Nat) (src : Source) : PRes (Except IOError Event) :=
  if item = 27 then parse_ansi_sequence isUpper src
  else if item = 13 then .ok (.ok (key_helper "" (.Char 13))) src
  else if item = 10 then .ok (.ok (key_helper "C" (.Char 106))) src
  else if item = 9 then .ok (.ok (key_helper "" (.Char 9))) src
  else if item = 127 then .ok (.ok (key_helper "" .Backspace)) src
  else if item = 0 then .ok (.ok (key_helper "C" (.Char 32))) src
  else if 1 ≤ item ∧ item ≤ 26 then .ok (.ok (key_helper "C" (.Char (item + 96)))) src
  else if 28 ≤ item ∧ item ≤ 31 then .ok (.ok (key_helper "C" (.Char (item + 24)))) src
  else
    match parse_utf8_char item src with
    | (.error e, rest) => .ok (.error e) rest
    | (.ok cp, rest) =>
      .ok (.ok (.Key (.Char cp) .Press (Modifiers.NONE.setShift (isUpper cp)))) rest

/-! ### Windows console record translator of `src/windows_input.rs` -/

/-- `KEY_EVENT_RECORD` as declared in the source; `unicode_char` is the `u16`
member of the `CharUnion`. -/
structure KeyEventRecord where
  key_down : Int
  repeat_count : Nat
  virtual_key_code : Nat
  virtual_scan_code : Nat
  unicode_char : Nat
  control_key_state : Nat
deriving DecidableEq, Repr

/-- `FOCUS_EVENT_RECORD` as declared in the source. -/
structure FocusEventRecord where
  set_focus : Int
deriving DecidableEq, Repr

/-- `INPUT_RECORD`: the `EventRecord` union is modelled by carrying both
members; only the one selected by `event_type` is meaningful. -/
structure InputRecord where
  event_type : Nat
  key : KeyEventRecord
  focus : FocusEventRecord
deriving DecidableEq, Repr

/-- Rust `char::from_u32`: `some` exactly on Unicode scalar values. -/
def rustCharFromU32 (n : Nat) : Option Nat :=
  if n < 0xD800 ∨ (0xE000 ≤ n ∧ n < 0x110000) then some n else none

/-- Rust `u8::is_ascii_alphabetic` on a scalar value. -/
def isAsciiAlphabetic (c : Nat) : Bool :=
  (decide (65 ≤ c) && decide (c ≤ 90)) || (decide (97 ≤ c) && decide (c ≤ 122))

/-- `parse_key_event(&event)` of `src/windows_input.rs`: virtual-key-code
dispatch with ctrl taken from bits `0x0008 | 0x0004` and shift from bit
`0x0010` of `control_key_state`. -/
def parse_key_event (event : KeyEventRecord) : Event :=
  let ctrl := decide (event.control_key_state &&& 12 ≠ 0)
  let shift := decide (event.control_key_state &&& 16 ≠ 0)
  let vkc := event.virtual_key_code
  if vkc = 8 then key_helper "" .Backspace
  else if vkc = 9 then (if shift then key_helper "S" .Tab else key_helper "" .Tab)
  else if vkc = 13 then key_helper "" (.Char 10)
  else if vkc = 27 then key_helper "" .Escape
  else if vkc = 33 then key_helper "" .PageUp
  else if vkc = 34 then key_helper "" .PageDown
  else if vkc = 35 then key_helper "" .End
  else if vkc = 36 then key_helper "" .Home
  else if vkc = 37 then key_helper "" .Left
  else if vkc = 38 then key_helper "" .Up
  else if vkc = 39 then key_helper "" .Right
  else if vkc = 40 then key_helper "" .Down
  else if vkc = 45 then key_helper "" .Insert
  else if vkc = 46 then key_helper "" .Delete
  else if 112 ≤ vkc ∧ vkc ≤ 135 then key_helper "" (.F (vkc - 111))
  else
    let num := event.unicode_char
    let c := (rustCharFromU32 num).getD 32
    if ctrl && isAsciiAlphabetic c then key_helper "C" (.Char c)
    else key_helper "" (.Char c)

/-- `poll_input(timeout)` of `src/windows_input.rs`, after the two syscalls:
`wait_result` is the `WaitForSingleObject` return value (`0` = signaled),
`read_result` the `ReadConsoleInputW` return value (`0` = failure), and
`record` the record it filled in. -/
def win_poll_input (wait_result : Nat) (read_result : Nat) (record : InputRecord) :
    Except IOError Event :=
  if wait_result ≠ 0 then .error .timedOut
  else if read_result = 0 then .error .osError
  else if record.event_type = 0x10 then .error .invalidDataKind
  else if record.event_type = 0x1 then
    if record.key.key_down = 0 then .error .otherKind
    else .ok (parse_key_event record.key)
  else .error .invalidDataKind

/-! ### Specification-side definitions used to state claims -/

/-- Standard UTF-8 encoder of a Unicode scalar value, used to state the
encode-then-decode round trip. -/
def utf8Encode (cp : Nat) : List Nat :=
  if cp < 0x80 then [cp]
  else if cp < 0x800 then [0xC0 + cp / 0x40, 0x80 + cp % 0x40]
  else if cp < 0x10000 then
    [0xE0 + cp / 0x1000, 0x80 + cp / 0x40 % 0x40, 0x80 + cp % 0x40]
  else
    [0xF0 + cp / 0x40000, 0x80 + cp / 0x1000 % 0x40, 0x80 + cp / 0x40 % 0x40, 0x80 + cp % 0x40]

/-- Claim-side 3-bit X10 dispatch table, written from the specification's
words: the low 2 bits of `Cb` select Left/Middle/Right press or Release, and
wheel directions instead when bit `0x40` is set.  It is compared against the
embedded `parse_x10_mouse`. -/
def x10_claim_table (cb : Nat) : MouseButton × ButtonType :=
  if cb &&& 64 ≠ 0 then
    (if cb &&& 3 = 0 then (.WheelUp, .Press)
     else if cb &&& 3 = 1 then (.WheelDown, .Press)
     else if cb &&& 3 = 2 then (.WheelLeft, .Press)
     else (.WheelRight, .Press))
  else
    (if cb &&& 3 = 0 then (.Left, .Press)
     else if cb &&& 3 = 1 then (.Middle, .Press)
     else if cb &&& 3 = 2 then (.Right, .Press)
     else (.Unknown, .Release))

/-! ### Unfolding and evaluation lemmas -/

lemma utf8Scalars_nil (fuel : Nat) : utf8Scalars fuel [] = some [] := by
  cases fuel <;> rfl

lemma utf8Scalars_succ (fuel : Nat) (b : Nat) (rest : List Nat) :
    utf8Scalars (fuel + 1) (b :: rest) =
      match utf8DecodeFirst (b :: rest) with
      | none => none
      | some (cp, r) => (utf8Scalars fuel r).map (cp :: ·) := rfl

lemma parse_utf8_go_succ (n : Nat) (bytes : List Nat) (src : Source) :
    parse_utf8_go (n + 1) bytes src =
      match utf8First bytes with
      | some cp => (.ok cp, src)
      | none =>
        match src with
        | [] => (.error utf8Error, [])
        | .error e :: rest => (.error e, rest)
        | .ok b :: rest => parse_utf8_go n (bytes ++ [b]) rest := rfl

lemma utf8DecodeFirst_single (b : Nat) (h : 0x80 ≤ b) : utf8DecodeFirst [b] = none := by
  simp only [utf8DecodeFirst]
  split_ifs <;> first | rfl | (exfalso; omega)

lemma utf8First_single (b : Nat) (h : 0x80 ≤ b) : utf8First [b] = none := by
  simp [utf8First, utf8Scalars_succ, utf8DecodeFirst_single b h]

lemma utf8First_of_decodeNone (b : Nat) (rest : List Nat)
    (h : utf8DecodeFirst (b :: rest) = none) : utf8First (b :: rest) = none := by
  simp [utf8First, utf8Scalars_succ, h]

lemma utf8First_of_decodeAll (b : Nat) (rest : List Nat) (cp : Nat)
    (h : utf8DecodeFirst (b :: rest) = some (cp, [])) : utf8First (b :: rest) = some cp := by
  simp [utf8First, utf8Scalars_succ, h, utf8Scalars_nil]

lemma isCont_true (b : Nat) (h1 : 0x80 ≤ b) (h2 : b < 0xC0) : isCont b = true := by
  simp [isCont]; omega

lemma utf8DecodeFirst_two (b0 b1 : Nat) (r : List Nat)
    (h0 : 0xC0 ≤ b0) (h0' : b0 < 0xE0) (h1 : 0x80 ≤ b1) (h1' : b1 < 0xC0)
    (hcp : 0x80 ≤ (b0 - 0xC0) * 0x40 + (b1 - 0x80)) :
    utf8DecodeFirst (b0 :: b1 :: r) = some ((b0 - 0xC0) * 0x40 + (b1 - 0x80), r) := by
  have na : ¬ b0 < 0x80 := by omega
  have nb : ¬ b0 < 0xC0 := by omega
  simp only [utf8DecodeFirst]
  rw [if_neg na, if_neg nb, if_pos h0']
  simp [isCont_true b1 h1 h1', hcp]

lemma utf8DecodeFirst_three (b0 b1 b2 : Nat) (r : List Nat)
    (h0 : 0xE0 ≤ b0) (h0' : b0 < 0xF0) (h1 : 0x80 ≤ b1) (h1' : b1 < 0xC0)
    (h2 : 0x80 ≤ b2) (h2' : b2 < 0xC0)
    (hlo : 0x800 ≤ (b0 - 0xE0) * 0x1000 + (b1 - 0x80) * 0x40 + (b2 - 0x80))
    (hsur : ¬(0xD800 ≤ (b0 - 0xE0) * 0x1000 + (b1 - 0x80) * 0x40 + (b2 - 0x80) ∧
      (b0 - 0xE0) * 0x1000 + (b1 - 0x80) * 0x40 + (b2 - 0x80) < 0xE000)) :
    utf8DecodeFirst (b0 :: b1 :: b2 :: r) =
      some ((b0 - 0xE0) * 0x1000 + (b1 - 0x80) * 0x40 + (b2 - 0x80), r) := by
  have na : ¬ b0 < 0x80 := by omega
  have nb : ¬ b0 < 0xC0 := by omega
  have nc : ¬ b0 < 0xE0 := by omega
  simp only [utf8DecodeFirst]
  rw [if_neg na, if_neg nb, if_neg nc, if_pos h0']
  simp [isCont_true b1 h1 h1', isCont_true b2 h2 h2', hlo, hsur]

lemma utf8DecodeFirst_four (b0 b1 b2 b3 : Nat) (r : List Nat)
    (h0 : 0xF0 ≤ b0) (h0' : b0 < 0xF8) (h1 : 0x80 ≤ b1) (h1' : b1 < 0xC0)
    (h2 : 0x80 ≤ b2) (h2' : b2 < 0xC0) (h3 : 0x80 ≤ b3) (h3' : b3 < 0xC0)
    (hlo : 0x10000 ≤
      (b0 - 0xF0) * 0x40000 + (b1 - 0x80) * 0x1000 + (b2 - 0x80) * 0x40 + (b3 - 0x80))
    (hhi : (b0 - 0xF0) * 0x40000 + (b1 - 0x80) * 0x1000 + (b2 - 0x80) * 0x40 + (b3 - 0x80)
      < 0x110000) :
    utf8DecodeFirst (b0 :: b1 :: b2 :: b3 :: r) =
      some ((b0 - 0xF0) * 0x40000 + (b1 - 0x80) * 0x1000 + (b2 - 0x80) * 0x40 + (b3 - 0x80),
        r) := by
  have na : ¬ b0 < 0x80 := by omega
  have nb : ¬ b0 < 0xC0 := by omega
  have nc : ¬ b0 < 0xE0 := by omega
  have nd : ¬ b0 < 0xF0 := by omega
  simp only [utf8DecodeFirst]
  rw [if_neg na, if_neg nb, if_neg nc, if_neg nd, if_pos h0']
  simp [isCont_true b1 h1 h1', isCont_true b2 h2 h2', isCont_true b3 h3 h3', hlo, hhi]

lemma utf8DecodeFirst_lead3_short (b0 b1 : Nat)
    (h0 : 0xE0 ≤ b0) (h0' : b0 < 0xF0) : utf8DecodeFirst [b0, b1] = none := by
  have na : ¬ b0 < 0x80 := by omega
  have nb : ¬ b0 < 0xC0 := by omega
  have nc : ¬ b0 < 0xE0 := by omega
  simp only [utf8DecodeFirst]
  rw [if_neg na, if_neg nb, if_neg nc, if_pos h0']

lemma utf8DecodeFirst_lead4_short1 (b0 b1 : Nat)
    (h0 : 0xF0 ≤ b0) (h0' : b0 < 0xF8) : utf8DecodeFirst [b0, b1] = none := by
  have na : ¬ b0 < 0x80 := by omega
  have nb : ¬ b0 < 0xC0 := by omega
  have nc : ¬ b0 < 0xE0 := by omega
  have nd : ¬ b0 < 0xF0 := by omega
  simp only [utf8DecodeFirst]
  rw [if_neg na, if_neg nb, if_neg nc, if_neg nd, if_pos h0']

lemma utf8DecodeFirst_lead4_short2 (b0 b1 b2 : Nat)
    (h0 : 0xF0 ≤ b0) (h0' : b0 < 0xF8) : utf8DecodeFirst [b0, b1, b2] = none := by
  have na : ¬ b0 < 0x80 := by omega
  have nb : ¬ b0 < 0xC0 := by omega
  have nc : ¬ b0 < 0xE0 := by omega
  have nd : ¬ b0 < 0xF0 := by omega
  simp only [utf8DecodeFirst]
  rw [if_neg na, if_neg nb, if_neg nc, if_neg nd, if_pos h0']

/-- Run lemma for the `parse_utf8_char` loop over a plain byte source: at most
`fuel` further bytes are consumed, always from the front, and the result is
either the InvalidEncoding error or a scalar that is the genuine UTF-8 reading
of the accumulated buffer. -/
lemma parse_utf8_go_run (fuel : Nat) : ∀ (bytes : List Nat) (bs : List Nat),
    ∃ k, k ≤ fuel ∧ k ≤ bs.length ∧
      (parse_utf8_go fuel bytes (mkSource bs)).2 = mkSource (bs.drop k) ∧
      ((parse_utf8_go fuel bytes (mkSource bs)).1 = .error utf8Error ∨
        ∃ cp, (parse_utf8_go fuel bytes (mkSource bs)).1 = .ok cp ∧
          utf8First (bytes ++ bs.take k) = some cp) := by
  induction fuel with
  | zero =>
    intro bytes bs
    exact ⟨0, by simp [parse_utf8_go]⟩
  | succ n ih =>
    intro bytes bs
    cases hf : utf8First bytes with
    | some cp =>
      refine ⟨0, by omega, by omega, ?_, ?_⟩
      · simp [parse_utf8_go_succ, hf]
      · right
        exact ⟨cp, by simp [parse_utf8_go_succ, hf], by simpa using hf⟩
    | none =>
      cases bs with
      | nil =>
        refine ⟨0, by omega, by omega, ?_, ?_⟩
        · simp [parse_utf8_go_succ, hf, mkSource]
        · left
          simp [parse_utf8_go_succ, hf, mkSource]
      | cons b bs2 =>
        obtain ⟨k, hk, hkb, h2, h1⟩ := ih (bytes ++ [b]) bs2
        have hred : parse_utf8_go (n + 1) bytes (mkSource (b :: bs2)) =
            parse_utf8_go n (bytes ++ [b]) (mkSource bs2) := by
          simp [parse_utf8_go_succ, hf, mkSource]
        refine ⟨k + 1, by omega, by simp; omega, ?_, ?_⟩
        · rw [hred]
          simpa using h2
        · rw [hred]
          rcases h1 with h1 | ⟨cp, hcp, hfirst⟩
          · exact Or.inl h1
          · right
            refine ⟨cp, hcp, ?_⟩
            simpa [List.append_assoc] using hfirst

/-! ### Payload lemmas for the numbered-escape path -/

/-- Run lemma for the payload-accumulation loop: bytes outside the CSI
final-byte range are pushed until the final byte is reached. -/
lemma csi_accumulate_run : ∀ (payload buf : List Nat) (fin : Nat) (rest : List Nat),
    (∀ b ∈ payload, ¬(64 ≤ b ∧ b ≤ 126)) → 64 ≤ fin → fin ≤ 126 →
    csi_accumulate buf (mkSource (payload ++ fin :: rest)) =
      .ok (buf ++ payload, fin) (mkSource rest) := by
  intro payload
  induction payload with
  | nil =>
    intro buf fin rest _ h1 h2
    simp [mkSource, csi_accumulate, h1, h2]
  | cons b bs ih =>
    intro buf fin rest hp h1 h2
    have hb : ¬(64 ≤ b ∧ b ≤ 126) := hp b (by simp)
    have := ih (buf ++ [b]) fin rest (fun x hx => hp x (by simp [hx])) h1 h2
    simp only [mkSource, List.map_cons, List.cons_append, csi_accumulate, hb, if_false]
    simpa [mkSource, List.append_assoc] using this

lemma splitOnByte_ne_nil (sep : Nat) : ∀ bs, splitOnByte sep bs ≠ [] := by
  intro bs
  cases bs with
  | nil => simp [splitOnByte]
  | cons a rest =>
    simp only [splitOnByte]
    cases splitOnByte sep rest with
    | nil => simp
    | cons g gs =>
      by_cases ha : a = sep <;> simp [ha]

lemma splitOnByte_mem (sep : Nat) : ∀ (bs : List Nat) (b : Nat), b ∈ bs →
    b = sep ∨ ∃ g ∈ splitOnByte sep bs, b ∈ g := by
  intro bs
  induction bs with
  | nil => simp
  | cons a rest ih =>
    intro b hb
    cases hsp : splitOnByte sep rest with
    | nil => exact absurd hsp (splitOnByte_ne_nil sep rest)
    | cons g gs =>
      rcases List.mem_cons.mp hb with rfl | hbr
      · by_cases ha : b = sep
        · exact Or.inl ha
        · right
          refine ⟨b :: g, ?_, by simp⟩
          simp [splitOnByte, hsp, ha]
      · rcases ih b hbr with h | ⟨g', hg', hbg'⟩
        · exact Or.inl h
        · right
          rw [hsp] at hg'
          by_cases ha : a = sep
          · refine ⟨g', ?_, hbg'⟩
            simp only [splitOnByte, hsp, if_pos ha]
            exact List.mem_cons_of_mem _ hg'
          · rcases List.mem_cons.mp hg' with rfl | hgs
            · exact ⟨a :: g', by simp [splitOnByte, hsp, ha], by simp [hbg']⟩
            · exact ⟨g', by simp [splitOnByte, hsp, ha, hgs], hbg'⟩

lemma splitOnByte_two_of_mem (sep : Nat) : ∀ bs, sep ∈ bs → 2 ≤ (splitOnByte sep bs).length := by
  intro bs
  induction bs with
  | nil => simp
  | cons a rest ih =>
    intro hmem
    cases hsp : splitOnByte sep rest with
    | nil => exact absurd hsp (splitOnByte_ne_nil sep rest)
    | cons g gs =>
      by_cases ha : a = sep
      · simp [splitOnByte, hsp, ha]
      · have hrest : sep ∈ rest := by
          rcases List.mem_cons.mp hmem with h | h
          · exact absurd h.symm ha
          · exact h
        have := ih hrest
        rw [hsp] at this
        simp [splitOnByte, hsp, ha]
        simpa using this

lemma parseNum_mem_lt (bound : Nat) (bs : List Nat) (n : Nat)
    (h : parseNum bound bs = some n) : ∀ b ∈ bs, b < 128 := by
  intro b hb
  simp only [parseNum] at h
  by_cases h43 : bs.headD 0 = 43
  · rw [if_pos h43] at h
    split_ifs at h with he hd
    · have hall := List.all_eq_true.mp hd
      cases bs with
      | nil => simp at hb
      | cons b0 rest =>
        rcases List.mem_cons.mp hb with rfl | hbr
        · simp at h43; omega
        · have := hall b (by simpa using hbr)
          simp at this; omega
  · rw [if_neg h43] at h
    split_ifs at h with he hd
    · have hall := List.all_eq_true.mp hd
      have := hall b hb
      simp at this; omega

lemma mapM_parseNum_facts (bound : Nat) : ∀ (l : List (List Nat)) (res : List Nat),
    l.mapM (parseNum bound) = some res →
    res.length = l.length ∧ ∀ g ∈ l, ∃ n, parseNum bound g = some n := by
  intro l
  induction l with
  | nil =>
    intro res h
    rw [List.mapM_nil] at h
    cases h
    simp
  | cons g gs ih =>
    intro res h
    rw [List.mapM_cons] at h
    cases hg : parseNum bound g with
    | none => rw [hg] at h; simp at h
    | some n =>
      rw [hg] at h
      cases hgs : gs.mapM (parseNum bound) with
      | none => rw [hgs] at h; simp at h
      | some ns =>
        rw [hgs] at h
        simp at h
        obtain ⟨hlen, hmem⟩ := ih ns hgs
        constructor
        · rw [← h]; simp [hlen]
        · intro g' hg'
          rcases List.mem_cons.mp hg' with rfl | hgs'
          · exact ⟨n, hg⟩
          · exact hmem g' hgs'

lemma utf8Scalars_ascii : ∀ (fuel : Nat) (bs : List Nat), bs.length ≤ fuel →
    (∀ b ∈ bs, b < 0x80) → utf8Scalars fuel bs = some bs := by
  intro fuel
  induction fuel with
  | zero =>
    intro bs h _
    cases bs with
    | nil => rfl
    | cons b rest => simp at h
  | succ n ih =>
    intro bs h hb
    cases bs with
    | nil => rfl
    | cons b rest =>
      rw [utf8Scalars_succ]
      have hb0 : b < 0x80 := hb b (by simp)
      have hfirst : utf8DecodeFirst (b :: rest) = some (b, rest) := by
        simp [utf8DecodeFirst, hb0]
      rw [hfirst]
      simp [ih rest (by simpa using h) (fun x hx => hb x (by simp [hx]))]

lemma utf8Valid_ascii (bs : List Nat) (hb : ∀ b ∈ bs, b < 0x80) : utf8Valid bs = true := by
  simp [utf8Valid, utf8Scalars_ascii bs.length bs le_rfl hb]

lemma buf_ascii_of_mapM (buf : List Nat) (nums : List Nat)
    (h : (splitOnByte 59 buf).mapM (parseNum 256) = some nums) : ∀ b ∈ buf, b < 128 := by
  intro b hb
  rcases splitOnByte_mem 59 buf b hb with rfl | ⟨g, hg, hbg⟩
  · omega
  · obtain ⟨n, hn⟩ := (mapM_parseNum_facts 256 _ _ h).2 g hg
    exact parseNum_mem_lt 256 g n hn b hbg

/-- Digit dispatch of `parse_csi_sequence`: a decimal digit byte hands off to
`parse_numbered_escape`. -/
lemma parse_csi_digit (c : Nat) (hc1 : 48 ≤ c) (hc2 : c ≤ 57) (src : Source) :
    parse_csi_sequence (.ok c :: src) = parse_numbered_escape src c := by
  have m1 : ¬c = 91 := by omega
  have m2 : ¬c = 68 := by omega
  have m3 : ¬c = 67 := by omega
  have m4 : ¬c = 65 := by omega
  have m5 : ¬c = 66 := by omega
  have m6 : ¬c = 72 := by omega
  have m7 : ¬c = 70 := by omega
  have m8 : ¬c = 90 := by omega
  have m9 : ¬c = 60 := by omega
  have m10 : ¬c = 77 := by omega
  simp only [parse_csi_sequence]
  rw [if_neg m1, if_neg m2, if_neg m3, if_neg m4, if_neg m5, if_neg m6, if_neg m7,
    if_neg m8, if_neg m9, if_neg m10, if_pos (⟨hc1, hc2⟩ : 48 ≤ c ∧ c ≤ 57)]

lemma parse_numbered_tilde_multinum (c : Nat) (payload rest : List Nat) (nums : List Nat)
    (hp : ∀ b ∈ payload, ¬(64 ≤ b ∧ b ≤ 126))
    (hnums : (splitOnByte 59 (c :: payload)).mapM (parseNum 256) = some nums)
    (hlen : 2 ≤ nums.length) :
    parse_numbered_escape (mkSource (payload ++ 126 :: rest)) c = .ok none (mkSource rest) := by
  have hacc := csi_accumulate_run payload [c] 126 rest hp (by omega) (by omega)
  have hval : utf8Valid (c :: payload) = true :=
    utf8Valid_ascii _ (buf_ascii_of_mapM (c :: payload) nums hnums)
  have hempty : ¬nums.isEmpty = true := by
    cases nums with
    | nil => simp at hlen
    | cons x xs => simp
  simp only [parse_numbered_escape]
  rw [hacc]
  simp only [List.singleton_append]
  rw [if_neg (show ¬(126 : Nat) = 77 by omega), if_pos trivial, if_pos hval, hnums]
  simp only []
  rw [if_neg hempty, if_pos (show 1 < nums.length by omega)]

lemma parse_numbered_unrecognized (c fin : Nat) (payload rest : List Nat)
    (hp : ∀ b ∈ payload, ¬(64 ≤ b ∧ b ≤ 126))
    (hfin : 64 ≤ fin ∧ fin ≤ 126 ∧ fin ≠ 77 ∧ fin ≠ 126 ∧ fin ≠ 117 ∧
      fin ≠ 65 ∧ fin ≠ 66 ∧ fin ≠ 67 ∧ fin ≠ 68 ∧ fin ≠ 70 ∧ fin ≠ 72) :
    parse_numbered_escape (mkSource (payload ++ fin :: rest)) c = .ok none (mkSource rest) := by
  have hacc := csi_accumulate_run payload [c] fin rest hp (by omega) (by omega)
  have k77 : ¬fin = 77 := by omega
  have k126 : ¬fin = 126 := by omega
  have k117 : ¬fin = 117 := by omega
  have kabc : ¬(fin = 65 ∨ fin = 66 ∨ fin = 67 ∨ fin = 68 ∨ fin = 70 ∨ fin = 72) := by omega
  simp only [parse_numbered_escape]
  rw [hacc]
  simp only [List.singleton_append]
  rw [if_neg k77, if_neg k126, if_neg k117, if_neg kabc]

lemma parse_numbered_tilde_sep_no_event (c : Nat) (payload rest : List Nat)
    (hp : ∀ b ∈ payload, ¬(64 ≤ b ∧ b ≤ 126)) (hsep : 59 ∈ payload) :
    parse_numbered_escape (mkSource (payload ++ 126 :: rest)) c = .ok none (mkSource rest) ∨
    parse_numbered_escape (mkSource (payload ++ 126 :: rest)) c = .panic := by
  have hacc := csi_accumulate_run payload [c] 126 rest hp (by omega) (by omega)
  by_cases hval : utf8Valid (c :: payload) = true
  · cases hnums : (splitOnByte 59 (c :: payload)).mapM (parseNum 256) with
    | none =>
      right
      simp only [parse_numbered_escape]
      rw [hacc]
      simp only [List.singleton_append]
      rw [if_neg (show ¬(126 : Nat) = 77 by omega), if_pos trivial, if_pos hval, hnums]
    | some nums =>
      left
      have hlen2 : 2 ≤ nums.length := by
        have h1 := (mapM_parseNum_facts 256 _ _ hnums).1
        have h2 := splitOnByte_two_of_mem 59 (c :: payload) (by simp [hsep])
        omega
      exact parse_numbered_tilde_multinum c payload rest nums hp hnums hlen2
  · right
    simp only [parse_numbered_escape]
    rw [hacc]
    simp only [List.singleton_append]
    rw [if_neg (show ¬(126 : Nat) = 77 by omega), if_pos trivial, if_neg hval]


/-! ### Claim theorems -/

/-- Claim C1, counterexample.  The claim bounds the decoder at 4 bytes total
(`c` plus at most 3 further bytes from the source).  On first byte `0x80`
(never valid UTF-8) and a source of five bytes, the decoder pulls FOUR bytes
from the source before returning the InvalidEncoding error: of the five
source items only the last remains unconsumed. -/
theorem claim_C1_counterexample :
    (parse_utf8_char 128 (mkSource [128, 128, 128, 128, 65])).1 = Except.error utf8Error ∧
    (parse_utf8_char 128 (mkSource [128, 128, 128, 128, 65])).2 = mkSource [65] := by
  decide

/-- Claim C1, amended.  `parse_utf8_char` consumes at most 5 bytes total (`c`
plus at most `k ≤ 4` further bytes, taken from the front of the source); the
call never panics, and it returns either the InvalidEncoding error (also when
the source is exhausted before a valid character is formed) or a scalar that
is exactly the first UTF-8 character of the bytes it actually read — never a
truncated character. -/
theorem claim_C1_amended (c : Nat) (bs : List Nat) :
    ∃ k, k ≤ 4 ∧ k ≤ bs.length ∧
      (parse_utf8_char c (mkSource bs)).2 = mkSource (bs.drop k) ∧
      ((parse_utf8_char c (mkSource bs)).1 = Except.error utf8Error ∨
        ∃ cp, (parse_utf8_char c (mkSource bs)).1 = Except.ok cp ∧
          utf8First (c :: bs.take k) = some cp) := by
  simpa [parse_utf8_char] using parse_utf8_go_run 4 [c] bs

/-- Claim C2.  The claim says that after `ESC O` only the bytes `P`–`S` are
accepted, mapping to `F1`–`F4`, and anything else is a parse failure, so that
SS3 never produces a function key above `F(4)` (and none above `F(24)`
exists).  The code's arm `b'P'..=b's'` also accepts `T`–`s` — on `ESC O T`
(byte 84) it returns `F(5)`, and on `ESC O s` (byte 115) it returns `F(36)`,
outside the crate's own `F(1..=24)` range. -/
theorem claim_C2_code_bug :
    parse_ansi_sequence (fun _ => false) (mkSource [79, 84]) =
      .ok (.ok (Event.Key (.F 5) .Press Modifiers.NONE)) [] ∧
    parse_ansi_sequence (fun _ => false) (mkSource [79, 115]) =
      .ok (.ok (Event.Key (.F 36) .Press Modifiers.NONE)) [] := by
  decide

/-- Claim C3, counterexample.  The claim says `ESC [ Z` yields Tab with the
shift modifier set; the code calls `key_helper("", Key::Tab)`, so the decoded
event carries `Modifiers::NONE`, whose shift flag is false. -/
theorem claim_C3_counterexample :
    parse_ansi_sequence (fun _ => false) (mkSource [91, 90]) =
      .ok (.ok (Event.Key .Tab .Press Modifiers.NONE)) [] ∧
    Modifiers.NONE.shift = false := by
  decide

/-- Claim C3, amended.  `ESC [ Z` decodes to `Key(Tab, Press, NONE)` — a Tab
key press with no modifiers (the shift flag is not set) — while `ESC [`
followed by `D`, `C`, `A`, `B`, `H` or `F` yields Left, Right, Up, Down, Home
or End respectively, as a Press with no modifiers. -/
theorem claim_C3_amended (isUpper : Nat → Bool) :
    parse_event isUpper 27 (mkSource [91, 90]) =
      .ok (.ok (Event.Key .Tab .Press Modifiers.NONE)) [] ∧
    parse_event isUpper 27 (mkSource [91, 68]) =
      .ok (.ok (Event.Key .Left .Press Modifiers.NONE)) [] ∧
    parse_event isUpper 27 (mkSource [91, 67]) =
      .ok (.ok (Event.Key .Right .Press Modifiers.NONE)) [] ∧
    parse_event isUpper 27 (mkSource [91, 65]) =
      .ok (.ok (Event.Key .Up .Press Modifiers.NONE)) [] ∧
    parse_event isUpper 27 (mkSource [91, 66]) =
      .ok (.ok (Event.Key .Down .Press Modifiers.NONE)) [] ∧
    parse_event isUpper 27 (mkSource [91, 72]) =
      .ok (.ok (Event.Key .Home .Press Modifiers.NONE)) [] ∧
    parse_event isUpper 27 (mkSource [91, 70]) =
      .ok (.ok (Event.Key .End .Press Modifiers.NONE)) [] :=
  ⟨rfl, rfl, rfl, rfl, rfl, rfl, rfl⟩

/-- Claim C4, counterexample.  The claim says a malformed numeric payload in a
numbered CSI escape returns a parse-failure error and never panics; on
`ESC [ 1 ! ~` (a non-numeric byte between the separators) the decoder panics
(`.parse().unwrap()` on the group `1!`). -/
theorem claim_C4_counterexample :
    parse_csi_sequence (mkSource [49, 33, 126]) = .panic := by decide

/-- Claim C4, amended.  For every numbered CSI escape (`ESC [` then a decimal
digit): a `~`-terminated sequence carrying more than one well-formed
semicolon-separated number returns a parse failure, for every payload and
every count of numbers; so does every sequence whose terminator byte is not
one of the recognized finals (`M`, `~`, `u`, `A`, `B`, `C`, `D`, `F`, `H`),
whatever its payload; and a `~`-terminated payload containing a semicolon
separator never silently yields an event — it returns the parse failure or
panics.  The parse failure (`None`) is surfaced to `parse_ansi_sequence`'s
caller as the parse-failure error.  But a payload with non-numeric bytes
between the separators panics instead of returning an error (see the
counterexample), as does a source that ends in the middle of the sequence. -/
theorem claim_C4_amended :
    (∀ c payload rest nums, 48 ≤ c → c ≤ 57 →
      (∀ b ∈ payload, ¬(64 ≤ b ∧ b ≤ 126)) →
      (splitOnByte 59 (c :: payload)).mapM (parseNum 256) = some nums →
      2 ≤ nums.length →
      parse_csi_sequence (mkSource (c :: (payload ++ 126 :: rest))) =
        .ok none (mkSource rest)) ∧
    (∀ c fin payload rest, 48 ≤ c → c ≤ 57 →
      (∀ b ∈ payload, ¬(64 ≤ b ∧ b ≤ 126)) →
      64 ≤ fin ∧ fin ≤ 126 ∧ fin ≠ 77 ∧ fin ≠ 126 ∧ fin ≠ 117 ∧
        fin ≠ 65 ∧ fin ≠ 66 ∧ fin ≠ 67 ∧ fin ≠ 68 ∧ fin ≠ 70 ∧ fin ≠ 72 →
      parse_csi_sequence (mkSource (c :: (payload ++ fin :: rest))) =
        .ok none (mkSource rest)) ∧
    (∀ c payload rest, 48 ≤ c → c ≤ 57 →
      (∀ b ∈ payload, ¬(64 ≤ b ∧ b ≤ 126)) → 59 ∈ payload →
      parse_csi_sequence (mkSource (c :: (payload ++ 126 :: rest))) =
        .ok none (mkSource rest) ∨
      parse_csi_sequence (mkSource (c :: (payload ++ 126 :: rest))) = .panic) ∧
    (∀ isUpper : Nat → Bool,
      parse_ansi_sequence isUpper (mkSource [91, 51, 59, 50, 126]) =
        .ok (.error (IOError.otherMsg "Could not parse event")) []) ∧
    parse_csi_sequence (mkSource [49, 59]) = .panic := by
  refine ⟨?_, ?_, ?_, fun isUpper => rfl, by decide⟩
  · intro c payload rest nums hc1 hc2 hp hnums hlen
    rw [show mkSource (c :: (payload ++ 126 :: rest)) =
        .ok c :: mkSource (payload ++ 126 :: rest) from rfl,
      parse_csi_digit c hc1 hc2]
    exact parse_numbered_tilde_multinum c payload rest nums hp hnums hlen
  · intro c fin payload rest hc1 hc2 hp hfin
    rw [show mkSource (c :: (payload ++ fin :: rest)) =
        .ok c :: mkSource (payload ++ fin :: rest) from rfl,
      parse_csi_digit c hc1 hc2]
    exact parse_numbered_unrecognized c fin payload rest hp hfin
  · intro c payload rest hc1 hc2 hp hsep
    rw [show mkSource (c :: (payload ++ 126 :: rest)) =
        .ok c :: mkSource (payload ++ 126 :: rest) from rfl,
      parse_csi_digit c hc1 hc2]
    exact parse_numbered_tilde_sep_no_event c payload rest hp hsep

/-- Claim C4, witness: the multi-digit `ESC [ 1 2 ; 3 ~` and the unrecognized
terminator `ESC [ 5 p` are parse failures, and the semicolon-carrying
malformed `ESC [ 1 ! ; ~` fails or panics. -/
theorem claim_C4_witness :
    parse_csi_sequence (mkSource [49, 50, 59, 51, 126]) = .ok none [] ∧
    parse_csi_sequence (mkSource [53, 112]) = .ok none [] ∧
    (parse_csi_sequence (mkSource [49, 33, 59, 126]) = .ok none [] ∨
      parse_csi_sequence (mkSource [49, 33, 59, 126]) = .panic) := by
  refine ⟨?_, ?_, ?_⟩
  · have h := claim_C4_amended.1 49 [50, 59, 51] [] [12, 3] (by decide) (by decide)
      (by decide) (by decide) (by decide)
    simpa [mkSource] using h
  · have h := claim_C4_amended.2.1 53 112 [] [] (by decide) (by decide) (by decide)
      (by decide)
    simpa [mkSource] using h
  · have h := claim_C4_amended.2.2.1 49 [33, 59] [] (by decide) (by decide) (by decide)
      (by decide)
    simpa [mkSource] using h

/-- Claim C5.  `ESC` followed by an immediately exhausted source decodes to
`Key(Escape, Press, NONE)` — a successful standalone Escape keypress, not an
error. -/
theorem claim_C5 (isUpper : Nat → Bool) :
    parse_event isUpper 27 (mkSource []) =
      .ok (.ok (Event.Key .Escape .Press Modifiers.NONE)) [] ∧
    parse_ansi_sequence isUpper (mkSource []) =
      .ok (.ok (Event.Key .Escape .Press Modifiers.NONE)) [] := ⟨rfl, rfl⟩

/-- Claim C6.  Encode-then-decode round trip: for every Unicode scalar value,
feeding its 1–4 byte UTF-8 encoding to `parse_utf8_char` one byte at a time
(first byte as the argument, the rest through the pull source) returns exactly
that scalar, with the source fully consumed. -/
theorem claim_C6 (cp : Nat) (h1 : cp < 0x110000) (h2 : ¬(0xD800 ≤ cp ∧ cp < 0xE000)) :
    parse_utf8_char ((utf8Encode cp).headD 0) (mkSource (utf8Encode cp).tail) =
      (.ok cp, []) := by
  by_cases hc1 : cp < 0x80
  · have henc : utf8Encode cp = [cp] := by simp [utf8Encode, hc1]
    rw [henc]
    have hfirst : utf8First [cp] = some cp :=
      utf8First_of_decodeAll cp [] cp (by simp [utf8DecodeFirst, hc1])
    simp [parse_utf8_char, mkSource, parse_utf8_go_succ, hfirst]
  · by_cases hc2 : cp < 0x800
    · have henc : utf8Encode cp = [0xC0 + cp / 0x40, 0x80 + cp % 0x40] := by
        simp [utf8Encode, hc1, hc2]
      rw [henc]
      set b0 := 0xC0 + cp / 0x40 with hb0
      set b1 := 0x80 + cp % 0x40 with hb1
      have hf1 : utf8First [b0] = none := utf8First_single b0 (by omega)
      have hval : (b0 - 0xC0) * 0x40 + (b1 - 0x80) = cp := by omega
      have hf2 : utf8First [b0, b1] = some cp := by
        rw [← hval]
        exact utf8First_of_decodeAll _ _ _
          (utf8DecodeFirst_two b0 b1 [] (by omega) (by omega) (by omega) (by omega) (by omega))
      simp [parse_utf8_char, mkSource, parse_utf8_go_succ, hf1, hf2]
    · by_cases hc3 : cp < 0x10000
      · have henc : utf8Encode cp =
            [0xE0 + cp / 0x1000, 0x80 + cp / 0x40 % 0x40, 0x80 + cp % 0x40] := by
          simp [utf8Encode, hc1, hc2, hc3]
        rw [henc]
        set b0 := 0xE0 + cp / 0x1000 with hb0
        set b1 := 0x80 + cp / 0x40 % 0x40 with hb1
        set b2 := 0x80 + cp % 0x40 with hb2
        have hf1 : utf8First [b0] = none := utf8First_single b0 (by omega)
        have hf2 : utf8First [b0, b1] = none :=
          utf8First_of_decodeNone b0 [b1]
            (utf8DecodeFirst_lead3_short b0 b1 (by omega) (by omega))
        have hval : (b0 - 0xE0) * 0x1000 + (b1 - 0x80) * 0x40 + (b2 - 0x80) = cp := by omega
        have hf3 : utf8First [b0, b1, b2] = some cp := by
          rw [← hval]
          exact utf8First_of_decodeAll _ _ _
            (utf8DecodeFirst_three b0 b1 b2 [] (by omega) (by omega) (by omega) (by omega)
              (by omega) (by omega) (by omega) (by omega))
        simp [parse_utf8_char, mkSource, parse_utf8_go_succ, hf1, hf2, hf3]
      · have henc : utf8Encode cp =
            [0xF0 + cp / 0x40000, 0x80 + cp / 0x1000 % 0x40,
              0x80 + cp / 0x40 % 0x40, 0x80 + cp % 0x40] := by
          simp [utf8Encode, hc1, hc2, hc3]
        rw [henc]
        set b0 := 0xF0 + cp / 0x40000 with hb0
        set b1 := 0x80 + cp / 0x1000 % 0x40 with hb1
        set b2 := 0x80 + cp / 0x40 % 0x40 with hb2
        set b3 := 0x80 + cp % 0x40 with hb3
        have hf1 : utf8First [b0] = none := utf8First_single b0 (by omega)
        have hf2 : utf8First [b0, b1] = none :=
          utf8First_of_decodeNone b0 [b1]
            (utf8DecodeFirst_lead4_short1 b0 b1 (by omega) (by omega))
        have hf3 : utf8First [b0, b1, b2] = none :=
          utf8First_of_decodeNone b0 [b1, b2]
            (utf8DecodeFirst_lead4_short2 b0 b1 b2 (by omega) (by omega))
        have hval : (b0 - 0xF0) * 0x40000 + (b1 - 0x80) * 0x1000
            + (b2 - 0x80) * 0x40 + (b3 - 0x80) = cp := by omega
        have hf4 : utf8First [b0, b1, b2, b3] = some cp := by
          rw [← hval]
          exact utf8First_of_decodeAll _ _ _
            (utf8DecodeFirst_four b0 b1 b2 b3 [] (by omega) (by omega) (by omega) (by omega)
              (by omega) (by omega) (by omega) (by omega) (by omega) (by omega))
        simp [parse_utf8_char, mkSource, parse_utf8_go_succ, hf1, hf2, hf3, hf4]

/-- Claim C6, witness: the three-byte encoding of the euro sign U+20AC fed
byte-by-byte decodes back to 0x20AC. -/
theorem claim_C6_witness :
    parse_utf8_char 226 (mkSource [130, 172]) = (.ok 8364, []) := by
  have h := claim_C6 8364 (by decide) (by decide)
  rw [show utf8Encode 8364 = [226, 130, 172] by decide] at h
  simpa using h

/-- Claim C7.  The X10 decoder reads exactly 3 payload bytes and dispatches on
`Cb = byte0 - 32` (wrapping) through the claim's 8-outcome table — low 2 bits
pick Left/Middle/Right/Release, or WheelUp/WheelDown/WheelLeft/WheelRight when
bit `0x40` is set — with the coordinate offsets subtracted saturatingly; and
the payload `(32+0, 33+5, 33+3)` decodes to `Mouse(NONE, Left, Press, 5, 3)`. -/
theorem claim_C7 :
    (∀ b0 b1 b2 : Nat, b0 < 256 →
      parse_x10_mouse (mkSource [b0, b1, b2]) =
        .ok (Event.Mouse Modifiers.NONE (x10_claim_table ((b0 + 224) % 256)).1
          (x10_claim_table ((b0 + 224) % 256)).2 (b1 - 33) (b2 - 33)) []) ∧
    parse_x10_mouse (mkSource [32, 38, 36]) =
      .ok (Event.Mouse Modifiers.NONE .Left .Press 5 3) [] := by
  constructor
  · intro b0 b1 b2 _h
    simp only [parse_x10_mouse, mkSource, List.map, x10_claim_table]
    split_ifs <;> simp_all
  · decide

/-- Claim C7, witness: byte0 = 97 has `Cb = 65`, whose wheel bit and low bits
select a WheelDown press. -/
theorem claim_C7_witness :
    parse_x10_mouse (mkSource [97, 43, 53]) =
      .ok (Event.Mouse Modifiers.NONE .WheelDown .Press 10 20) [] := by
  have h := claim_C7.1 97 43 53 (by decide)
  exact h.trans (by decide)

/-- Claim C8.  Decoding is deterministic and stateless: the embedded decoder
is a pure function of the byte sequence, so two runs over independently
constructed sources that yield the same bytes produce value-equal results. -/
theorem claim_C8 (isUpper : Nat → Bool) (item : Nat) (bs1 bs2 : List Nat)
    (h : bs1 = bs2) :
    parse_event isUpper item (mkSource bs1) = parse_event isUpper item (mkSource bs2) := by
  rw [h]

/-- Claim C8, witness: two independently constructed sources for `ESC [ D`. -/
theorem claim_C8_witness :
    parse_event (fun _ => false) 27 (mkSource [91, 68]) =
      parse_event (fun _ => false) 27 (mkSource [91, 68]) :=
  claim_C8 (fun _ => false) 27 [91, 68] [91, 68] rfl

/-- Claim C9.  For every console input record that is a key event
(`event_type = 1`) whose key-down flag is 0, the Windows `poll_input` returns
the `Other`-kind error on the successful-syscall path, and for every
combination of syscall results it returns some error — never an `Event`. -/
theorem claim_C9 (r : InputRecord) (h1 : r.event_type = 1)
    (h2 : r.key.key_down = 0) :
    win_poll_input 0 1 r = Except.error IOError.otherKind ∧
    ∀ w rr : Nat, ∃ e, win_poll_input w rr r = Except.error e := by
  constructor
  · simp [win_poll_input, h1, h2]
  · intro w rr
    unfold win_poll_input
    split_ifs
    all_goals exact ⟨_, rfl⟩

/-- Claim C9, witness: a key-up record for the `A` key is suppressed with an
error. -/
theorem claim_C9_witness :
    win_poll_input 0 1 ⟨1, ⟨0, 1, 65, 30, 65, 0⟩, ⟨0⟩⟩ =
      Except.error IOError.otherKind :=
  (claim_C9 ⟨1, ⟨0, 1, 65, 30, 65, 0⟩, ⟨0⟩⟩ rfl rfl).1

/-- Claim C10.  Every plain byte decoded through the UTF-8 path (not `ESC`,
not one of the matched control bytes, i.e. `32 ≤ c` and `c ≠ 127`) yields a
`Key(Char cp, Press, mods)` event whose shift flag is exactly
`is_uppercase(cp)` and whose other flags are clear; the Alt-prefixed variant
(`ESC` then such a byte) sets shift by the same rule and additionally alt. -/
theorem claim_C10 (isUpper : Nat → Bool) (c : Nat) (src : Source) (cp : Nat)
    (rest : Source) (hc : 32 ≤ c) (hc' : c ≠ 127)
    (h : parse_utf8_char c src = (.ok cp, rest)) :
    parse_event isUpper c src =
      .ok (.ok (Event.Key (.Char cp) .Press ⟨isUpper cp, false, false, false⟩)) rest ∧
    (c ≠ 79 → c ≠ 91 →
      parse_ansi_sequence isUpper (.ok c :: src) =
        .ok (.ok (Event.Key (.Char cp) .Press ⟨isUpper cp, true, false, false⟩)) rest) := by
  constructor
  · simp only [parse_event]
    split_ifs <;> first | (exfalso; omega) | (rw [h]; exact rfl)
  · intro h79 h91
    simp only [parse_ansi_sequence]
    split_ifs <;> first | (exfalso; omega) | (rw [h]; exact rfl)

/-- Claim C10, witness: byte `A` (65) decodes to `Char 65` with shift set
under the ASCII uppercase test, and `ESC A` to the same with alt added. -/
theorem claim_C10_witness :
    parse_event (fun cp => decide (65 ≤ cp ∧ cp ≤ 90)) 65 (mkSource []) =
      .ok (.ok (Event.Key (.Char 65) .Press ⟨true, false, false, false⟩)) [] ∧
    parse_ansi_sequence (fun cp => decide (65 ≤ cp ∧ cp ≤ 90)) (.ok 65 :: mkSource []) =
      .ok (.ok (Event.Key (.Char 65) .Press ⟨true, true, false, false⟩)) [] := by
  have h := claim_C10 (fun cp => decide (65 ≤ cp ∧ cp ≤ 90)) 65 (mkSource []) 65 []
    (by decide) (by decide) (by decide)
  exact ⟨by simpa using h.1, by simpa using h.2 (by decide) (by decide)⟩

end Neutuino
